import Mathlib

/-!
Verification development for the music-library catalog service.

The repository contains two parallel implementations of the same
service.  We embed both and name them:

* `VariantA` — `internal/repository/postgers.go` (repository),
  the first `MusicService` in the service file (verses returned as raw
  strings), and the handler that reads the `release_date` query
  parameter (part_005).
* `VariantB` — the repository with `GetSongByID` (part_003), the
  second `MusicService` (the one with `fetchExternalData` and the
  `Verse` struct), and `internal/api/handler.go`.

Strings are embedded as `List Char` (Go strings are sequences of
bytes; all constants involved are plain text, so a character list is a
faithful model).  Go `int` values that the handlers validate to be
positive (ids, page, limit) are embedded as `Nat`.  Timestamps
(`created_at` / `updated_at`) play no role in any claim and are
omitted from the record model.
-/

/-- Model of Go `unicode.IsSpace` (the character class used by
`strings.TrimSpace`): ASCII whitespace, NEL, NBSP and the Unicode
White_Space code points. -/
def goIsSpace (c : Char) : Bool :=
  let n := c.toNat
  if n = 0x09 ∨ n = 0x0A ∨ n = 0x0B ∨ n = 0x0C ∨ n = 0x0D ∨ n = 0x20 then true
  else if n = 0x85 ∨ n = 0xA0 then true
  else if n = 0x1680 then true
  else if 0x2000 ≤ n ∧ n ≤ 0x200A then true
  else if n = 0x2028 ∨ n = 0x2029 ∨ n = 0x202F ∨ n = 0x205F ∨ n = 0x3000 then true
  else false

/-- Model of Go `strings.TrimSpace`: drop leading and trailing
whitespace characters. -/
def trimSpace (s : List Char) : List Char :=
  ((s.dropWhile goIsSpace).reverse.dropWhile goIsSpace).reverse

/-- Model of `splitVerses` / the inline `strings.Split(text, "\n\n")`
call: split a text on each leftmost occurrence of two consecutive
newline characters.  `strings.Split` of the empty string yields a
single empty piece. -/
def splitVerses : List Char → List (List Char)
  | [] => [[]]
  | [c] => [[c]]
  | c :: d :: rest =>
    if c = '\n' ∧ d = '\n' then
      [] :: splitVerses rest
    else
      match splitVerses (d :: rest) with
      | [] => [[c]]
      | v :: vs => (c :: v) :: vs

/-- Joining a list of verses, re-inserting the blank-line delimiter
`"\n\n"` between consecutive verses. -/
def joinVerses : List (List Char) → List Char
  | [] => []
  | [v] => v
  | v :: w :: ws => v ++ '\n' :: '\n' :: joinVerses (w :: ws)

theorem splitVerses_ne_nil (s : List Char) : splitVerses s ≠ [] := by
  match s with
  | [] => simp [splitVerses]
  | [c] => simp [splitVerses]
  | c :: d :: rest =>
    rw [splitVerses]
    split
    · simp
    · split <;> simp

theorem joinVerses_splitVerses (s : List Char) :
    joinVerses (splitVerses s) = s := by
  match s with
  | [] => rfl
  | [c] => rfl
  | c :: d :: rest =>
    rw [splitVerses]
    split
    · rename_i h
      obtain ⟨hc, hd⟩ := h
      subst hc; subst hd
      have ih := joinVerses_splitVerses rest
      obtain ⟨v, vs, hv⟩ : ∃ v vs, splitVerses rest = v :: vs := by
        cases hsp : splitVerses rest with
        | nil => exact absurd hsp (splitVerses_ne_nil rest)
        | cons v vs => exact ⟨v, vs, rfl⟩
      rw [hv]
      rw [hv] at ih
      simpa [joinVerses] using ih
    · have ih := joinVerses_splitVerses (d :: rest)
      obtain ⟨v, vs, hv⟩ : ∃ v vs, splitVerses (d :: rest) = v :: vs := by
        cases hsp : splitVerses (d :: rest) with
        | nil => exact absurd hsp (splitVerses_ne_nil (d :: rest))
        | cons v vs => exact ⟨v, vs, rfl⟩
      rw [hv]
      rw [hv] at ih
      cases vs with
      | nil => simpa [joinVerses] using congrArg (c :: ·) ih
      | cons w ws =>
        simp only [joinVerses] at ih ⊢
        rw [List.cons_append, ih]

/-- Modelled from the spec: "the string obtained from T by trimming
leading/trailing whitespace of each individual verse", where the
verses of T are its blank-line-delimited segments. -/
def trimEachVerse (T : List Char) : List Char :=
  joinVerses ((splitVerses T).map trimSpace)

/-- C4: joining the verses produced by the splitter in order,
re-inserting the blank-line delimiter, reconstructs the text exactly
(first conjunct), and joining the trimmed verses that `GetVerses`
produces yields the text with each individual verse trimmed (second
conjunct). -/
theorem c4_verse_roundtrip (T : List Char) :
    joinVerses (splitVerses T) = T ∧
      joinVerses ((splitVerses T).map trimSpace) = trimEachVerse T :=
  ⟨joinVerses_splitVerses T, rfl⟩

/-! ## Data model and store semantics -/

/-- The persisted song record (`songs` table / `models.Song`), minus
the timestamp columns, which no claim observes. -/
structure Song where
  id : Nat
  groupName : List Char
  songName : List Char
  releaseDate : List Char
  text : List Char
  link : List Char
  deriving DecidableEq

/-- The relational store: the `songs` table together with the state of
its `SERIAL` id sequence (`nextId` is the id the next insert gets). -/
structure Store where
  nextId : Nat
  rows : List Song
  deriving DecidableEq

/-- A freshly initialised database: empty table, sequence at 1. -/
def emptyStore : Store := ⟨1, []⟩

/-- Semantics of `SELECT ... WHERE id = $1` (`db.Get` / `QueryRow` on
the primary key): the first row with the given id, if any. -/
def findSong (st : Store) (id : Nat) : Option Song :=
  st.rows.find? (fun r => r.id = id)

/-- Go errors that flow through the service.  `fmt.Errorf` (without
`%w`) creates a fresh error value that `errors.Is (_, sql.ErrNoRows)`
never matches; `songNotFound` models the value built by
`fmt.Errorf("song with id %d not found", songID)`. -/
inductive GoErr where
  | noRows
  | songNotFound (id : Nat)
  deriving DecidableEq

/-- HTTP responses a handler can produce, abstracted to their status
class; `ok` carries the 200 body. -/
inductive HResp (α : Type) where
  | ok (body : α)
  | badRequest
  | notFound
  | internalError
  deriving DecidableEq

/-! ## ILIKE semantics -/

/-- ASCII lower-casing, the case folding relevant to `ILIKE` on the
ASCII inputs the service handles. -/
def asciiLower (c : Char) : Char :=
  if 'A' ≤ c ∧ c ≤ 'Z' then Char.ofNat (c.toNat + 32) else c

/-- Helper for the `%` wildcard: try the continuation on the string
and on every proper suffix of it. -/
def likeTryAll (restMatch : List Char → Bool) : List Char → Bool
  | [] => restMatch []
  | d :: s' => restMatch (d :: s') || likeTryAll restMatch s'

/-- Semantics of the SQL `ILIKE` operator: `likeMatch pat s` is true
iff the whole of `s` matches the pattern, where `%` matches any
sequence, `_` matches one character, a backslash escapes the next
pattern character, and single characters compare case-insensitively.
(Postgres raises an error on a pattern ending in a lone backslash;
that branch returns `false` and is unreachable for the patterns the
repository builds from backslash-free filters.) -/
def likeMatch : List Char → List Char → Bool
  | [] => fun s => s.isEmpty
  | p :: ps =>
    if p = '%' then likeTryAll (likeMatch ps)
    else if p = '_' then fun s =>
      match s with
      | [] => false
      | _ :: s' => likeMatch ps s'
    else if p = '\\' then
      match ps with
      | [] => fun _ => false
      | q :: ps' => fun s =>
        match s with
        | [] => false
        | d :: s' => asciiLower d = asciiLower q && likeMatch ps' s'
    else fun s =>
      match s with
      | [] => false
      | d :: s' => asciiLower d = asciiLower p && likeMatch ps s'

/-- Modelled from the spec: case-insensitive prefix test. -/
def startsWithCI : List Char → List Char → Bool
  | [], _ => true
  | _ :: _, [] => false
  | c :: cs, d :: ds => asciiLower d = asciiLower c && startsWithCI cs ds

/-- Modelled from the spec: "case-insensitive substring match" —
`needle` occurs (case-insensitively) somewhere inside the text. -/
def substrCI (needle : List Char) : List Char → Bool
  | [] => startsWithCI needle []
  | c :: rest => startsWithCI needle (c :: rest) || substrCI needle rest

/-- A filter string free of the SQL LIKE metacharacters `%`, `_` and
the escape character backslash. -/
def noWild (needle : List Char) : Bool :=
  needle.all (fun c => ¬(c = '%' ∨ c = '_' ∨ c = '\\'))

theorem likeMatch_percent (ps : List Char) :
    likeMatch ('%' :: ps) = likeTryAll (likeMatch ps) := by
  cases ps <;> simp [likeMatch]

theorem likeMatch_lit_nil (c : Char) (ps : List Char) (hc1 : c ≠ '%') :
    likeMatch (c :: ps) [] = false := by
  cases ps with
  | nil =>
    simp only [likeMatch]
    rw [if_neg hc1]
    split
    · rfl
    · split <;> rfl
  | cons q ps' =>
    simp only [likeMatch]
    rw [if_neg hc1]
    split
    · rfl
    · split <;> rfl

theorem likeMatch_lit_cons (c : Char) (ps : List Char) (hc1 : c ≠ '%')
    (hc2 : c ≠ '_') (hc3 : c ≠ '\\') (d : Char) (s' : List Char) :
    likeMatch (c :: ps) (d :: s') =
      (asciiLower d = asciiLower c && likeMatch ps s') := by
  cases ps <;> simp [likeMatch, hc1, hc2, hc3]

theorem likeMatch_percent_nil (s : List Char) : likeMatch ['%'] s = true := by
  induction s with
  | nil => rfl
  | cons d s' ih =>
    rw [likeMatch_percent] at ih ⊢
    simp only [likeTryAll]
    rw [ih]
    simp

theorem likeMatch_lit_percent (needle : List Char) (hw : noWild needle = true)
    (s : List Char) : likeMatch (needle ++ ['%']) s = startsWithCI needle s := by
  match needle, s with
  | [], s => simpa [startsWithCI] using likeMatch_percent_nil s
  | c :: cs, [] =>
    have hc : ¬(c = '%' ∨ c = '_' ∨ c = '\\') := by
      have := List.all_eq_true.mp hw c (by simp)
      simpa using this
    rw [List.cons_append, likeMatch_lit_nil c (cs ++ ['%']) (fun h => hc (Or.inl h))]
    rfl
  | c :: cs, d :: s' =>
    have hc : ¬(c = '%' ∨ c = '_' ∨ c = '\\') := by
      have := List.all_eq_true.mp hw c (by simp)
      simpa using this
    have hcs : noWild cs = true := by
      refine List.all_eq_true.mpr ?_
      intro x hx
      exact List.all_eq_true.mp hw x (by simp [hx])
    rw [List.cons_append,
      likeMatch_lit_cons c (cs ++ ['%']) (fun h => hc (Or.inl h))
        (fun h => hc (Or.inr (Or.inl h))) (fun h => hc (Or.inr (Or.inr h))) d s',
      likeMatch_lit_percent cs hcs s']
    rfl

theorem likeMatch_wrap (needle : List Char) (hw : noWild needle = true)
    (s : List Char) :
    likeMatch ('%' :: (needle ++ ['%'])) s = substrCI needle s := by
  match s with
  | [] =>
    rw [likeMatch_percent]
    show likeMatch (needle ++ ['%']) [] = substrCI needle []
    rw [likeMatch_lit_percent needle hw []]
    rfl
  | d :: s' =>
    rw [likeMatch_percent]
    simp only [likeTryAll]
    rw [likeMatch_lit_percent needle hw (d :: s')]
    have ih := likeMatch_wrap needle hw s'
    rw [likeMatch_percent] at ih
    rw [ih]
    rfl

/-! ## SELECT query semantics (ORDER BY id, LIMIT, OFFSET) -/

/-- Insert a row into a list sorted by ascending id. -/
def insertById (r : Song) : List Song → List Song
  | [] => [r]
  | x :: xs => if r.id ≤ x.id then r :: x :: xs else x :: insertById r xs

/-- `ORDER BY id`: the table rows sorted by ascending id. -/
def sortById (rows : List Song) : List Song :=
  rows.foldr insertById []

theorem mem_insertById {a r : Song} {l : List Song} :
    a ∈ insertById r l ↔ a = r ∨ a ∈ l := by
  induction l with
  | nil => simp [insertById]
  | cons x xs ih =>
    simp only [insertById]
    split
    · simp
    · simp only [List.mem_cons, ih]
      tauto

theorem mem_sortById {a : Song} {l : List Song} :
    a ∈ sortById l ↔ a ∈ l := by
  induction l with
  | nil => simp [sortById]
  | cons x xs ih =>
    simp only [sortById, List.foldr_cons] at *
    rw [mem_insertById]
    simp [ih]

theorem pairwise_insertById {r : Song} {l : List Song}
    (h : l.Pairwise (fun a b => a.id ≤ b.id)) :
    (insertById r l).Pairwise (fun a b => a.id ≤ b.id) := by
  induction l with
  | nil => simp [insertById]
  | cons x xs ih =>
    simp only [insertById]
    rcases List.pairwise_cons.mp h with ⟨hx, hxs⟩
    split
    · rename_i hle
      refine List.pairwise_cons.mpr ⟨?_, h⟩
      intro b hb
      rcases List.mem_cons.mp hb with rfl | hb'
      · exact hle
      · exact Nat.le_trans hle (hx b hb')
    · rename_i hgt
      refine List.pairwise_cons.mpr ⟨?_, ih hxs⟩
      intro b hb
      rcases mem_insertById.mp hb with rfl | hb'
      · omega
      · exact hx b hb'

theorem sortById_pairwise (l : List Song) :
    (sortById l).Pairwise (fun a b => a.id ≤ b.id) := by
  induction l with
  | nil => simp [sortById]
  | cons x xs ih => exact pairwise_insertById ih

/-- One condition of a built `WHERE` clause. -/
inductive Cond where
  | ilikeGroupName (pat : List Char)
  | ilikeSongName (pat : List Char)
  | eqReleaseDate (v : List Char)
  deriving DecidableEq

/-- Row-level meaning of a single `WHERE` condition. -/
def matchesCond (r : Song) : Cond → Bool
  | .ilikeGroupName pat => likeMatch pat r.groupName
  | .ilikeSongName pat => likeMatch pat r.songName
  | .eqReleaseDate v => decide (r.releaseDate = v)

/-- Conjunction of all `WHERE` conditions. -/
def matchesAll (conds : List Cond) (r : Song) : Bool :=
  conds.all (matchesCond r)

/-- Semantics of the constructed
`SELECT ... WHERE <conds> ORDER BY id LIMIT $n OFFSET $m` statement. -/
def runSelect (st : Store) (conds : List Cond) (limit offset : Nat) : List Song :=
  (((sortById st.rows).filter (matchesAll conds)).drop offset).take limit

/-! ## Variant A repository: `internal/repository/postgers.go` -/

namespace VariantA

namespace PostgresRepository

/-- The `WHERE` clause built incrementally by `GetSongs` in
`postgers.go`: a `group_name ILIKE '%'||group||'%'` condition when the
group filter is nonempty, then the analogous `song_name` condition,
then `release_date = $n` when the release-date filter is nonempty. -/
def buildConds (group song releaseDate : List Char) : List Cond :=
  (if group ≠ [] then [Cond.ilikeGroupName ('%' :: (group ++ ['%']))] else []) ++
    (if song ≠ [] then [Cond.ilikeSongName ('%' :: (song ++ ['%']))] else []) ++
    (if releaseDate ≠ [] then [Cond.eqReleaseDate releaseDate] else [])

/-- `postgers.go` `GetSongs`: run the built query.  `db.Select` with no
matching rows yields an empty slice and no error. -/
def GetSongs (st : Store) (group song releaseDate : List Char)
    (limit offset : Nat) : Except GoErr (List Song) :=
  .ok (runSelect st (buildConds group song releaseDate) limit offset)

end PostgresRepository

namespace MusicService

/-- The first service's `GetSongs`: passes the filters straight to the
repository and propagates its result. -/
def GetSongs (st : Store) (group song releaseDate : List Char)
    (limit offset : Nat) : Except GoErr (List Song) :=
  PostgresRepository.GetSongs st group song releaseDate limit offset

end MusicService

namespace Handler

/-- The handler that reads the `release_date` query parameter
(part_005): validates `page ≥ 1` and `limit ≥ 1` (else 400), then
calls the service with `offset = (page-1)*limit`. -/
def GetSongs (st : Store) (group song releaseDate : List Char)
    (page limit : Nat) : HResp (List Song) :=
  if page < 1 then .badRequest
  else if limit < 1 then .badRequest
  else
    match MusicService.GetSongs st group song releaseDate limit ((page - 1) * limit) with
    | .ok songs => .ok songs
    | .error _ => .internalError

end Handler

end VariantA

/-- Modelled from the spec: "Filters are optional substring match
(case-insensitive) for group/title, exact match for releaseDate;
absent filters match everything". -/
def specMatches (group song releaseDate : List Char) (r : Song) : Bool :=
  (decide (group = []) || substrCI group r.groupName) &&
    ((decide (song = []) || substrCI song r.songName) &&
      (decide (releaseDate = []) || decide (r.releaseDate = releaseDate)))

theorem matchesAll_buildConds (group song releaseDate : List Char)
    (hg : noWild group = true) (hs : noWild song = true) (r : Song) :
    matchesAll (VariantA.PostgresRepository.buildConds group song releaseDate) r =
      specMatches group song releaseDate r := by
  unfold VariantA.PostgresRepository.buildConds specMatches matchesAll
  by_cases h1 : group = [] <;> by_cases h2 : song = [] <;>
    by_cases h3 : releaseDate = [] <;>
      simp [h1, h2, h3, matchesCond, likeMatch_wrap group hg,
        likeMatch_wrap song hs, List.isEmpty_eq_false]

/-- C7 (amended): for page ≥ 1, limit ≥ 1 and group/title filters free
of LIKE metacharacters, the list query returns 200 with: records
filtered by case-insensitive substring (group/title) and exact
release-date equality, absent filters matching everything, ordered by
ascending identifier, skipping exactly (page-1)*limit records, at most
limit records, and an empty match set yielding an empty sequence
rather than an error. -/
theorem c7_list_query (st : Store) (group song releaseDate : List Char)
    (page limit : Nat) (hp : 1 ≤ page) (hl : 1 ≤ limit)
    (hg : noWild group = true) (hs : noWild song = true) :
    ∃ res,
      VariantA.Handler.GetSongs st group song releaseDate page limit = .ok res ∧
        res = (((sortById st.rows).filter
          (specMatches group song releaseDate)).drop ((page - 1) * limit)).take limit ∧
        res.length ≤ limit ∧
        res.Pairwise (fun a b => a.id ≤ b.id) ∧
        (∀ r ∈ res, r ∈ st.rows ∧ specMatches group song releaseDate r = true) ∧
        ((sortById st.rows).filter (specMatches group song releaseDate) = [] →
          res = []) := by
  have hfilter : (sortById st.rows).filter
      (matchesAll (VariantA.PostgresRepository.buildConds group song releaseDate)) =
      (sortById st.rows).filter (specMatches group song releaseDate) :=
    List.filter_congr (fun r _ => matchesAll_buildConds group song releaseDate hg hs r)
  refine ⟨(((sortById st.rows).filter
    (specMatches group song releaseDate)).drop ((page - 1) * limit)).take limit,
    ?_, rfl, ?_, ?_, ?_, ?_⟩
  · unfold VariantA.Handler.GetSongs VariantA.MusicService.GetSongs
      VariantA.PostgresRepository.GetSongs runSelect
    rw [if_neg (by omega), if_neg (by omega)]
    dsimp only
    rw [hfilter]
  · have h := List.length_take limit
      (((sortById st.rows).filter (specMatches group song releaseDate)).drop
        ((page - 1) * limit))
    omega
  · exact (((sortById_pairwise st.rows).filter _).sublist
      (List.drop_sublist _ _)).sublist (List.take_sublist _ _)
  · intro r hr
    have hr2 : r ∈ (sortById st.rows).filter (specMatches group song releaseDate) :=
      ((List.take_sublist _ _).trans (List.drop_sublist _ _)).mem hr
    rcases List.mem_filter.mp hr2 with ⟨hmem, hpred⟩
    exact ⟨mem_sortById.mp hmem, hpred⟩
  · intro h
    rw [h]
    simp

/-- C7 counterexample: the group filter `"a%c"` is not a
(case-insensitive) substring of `"abc"`, yet the list query returns
the record with group `"abc"` — the filter is interpreted as an ILIKE
pattern fragment, not as a literal substring. -/
theorem c7_substring_cex :
    VariantA.Handler.GetSongs ⟨2, [⟨1, "abc".data, "t".data, "2000".data, [], []⟩]⟩
        "a%c".data [] [] 1 10 =
      .ok [⟨1, "abc".data, "t".data, "2000".data, [], []⟩] ∧
      substrCI "a%c".data "abc".data = false := by decide

/-- C7 witness: the amended list-query theorem applied at a concrete
store and filter. -/
theorem c7_list_query_witness :
    (1 ≤ 1 ∧ 1 ≤ 10 ∧ noWild "mu".data = true ∧ noWild [] = true) ∧
      (∃ res,
        VariantA.Handler.GetSongs ⟨2, [⟨1, "Muse".data, "Hole".data, "2001".data, [], []⟩]⟩
            "mu".data [] [] 1 10 = .ok res ∧
          res = (((sortById [⟨1, "Muse".data, "Hole".data, "2001".data, [], []⟩]).filter
            (specMatches "mu".data [] [])).drop ((1 - 1) * 10)).take 10 ∧
          res.length ≤ 10 ∧
          res.Pairwise (fun a b => a.id ≤ b.id) ∧
          (∀ r ∈ res, r ∈ [⟨1, "Muse".data, "Hole".data, "2001".data, [], []⟩] ∧
            specMatches "mu".data [] [] r = true) ∧
          ((sortById [⟨1, "Muse".data, "Hole".data, "2001".data, [], []⟩]).filter
            (specMatches "mu".data [] []) = [] → res = [])) :=
  ⟨by decide,
    c7_list_query ⟨2, [⟨1, "Muse".data, "Hole".data, "2001".data, [], []⟩]⟩
      "mu".data [] [] 1 10 (by decide) (by decide) (by decide) (by decide)⟩

/-! ## URL escaping (Go `net/url.QueryEscape`) -/

/-- UTF-8 encoding of one character, as the list of its byte values. -/
def utf8Bytes (c : Char) : List Nat :=
  let n := c.toNat
  if n < 0x80 then [n]
  else if n < 0x800 then [0xC0 + n / 0x40, 0x80 + n % 0x40]
  else if n < 0x10000 then
    [0xE0 + n / 0x1000, 0x80 + (n / 0x40) % 0x40, 0x80 + n % 0x40]
  else
    [0xF0 + n / 0x40000, 0x80 + (n / 0x1000) % 0x40,
      0x80 + (n / 0x40) % 0x40, 0x80 + n % 0x40]

/-- Upper-case hexadecimal digit, as Go's escaper emits. -/
def hexUpper (n : Nat) : Char :=
  if n < 10 then Char.ofNat (48 + n) else Char.ofNat (55 + n)

/-- Go `url.QueryEscape` per-byte behaviour: alphanumerics and
`-_.~` are kept, a space becomes `+`, every other byte becomes
`%XX`. -/
def escapeByte (b : Nat) : List Char :=
  if (65 ≤ b ∧ b ≤ 90) ∨ (97 ≤ b ∧ b ≤ 122) ∨ (48 ≤ b ∧ b ≤ 57) ∨
      b = 45 ∨ b = 95 ∨ b = 46 ∨ b = 126 then
    [Char.ofNat b]
  else if b = 32 then ['+']
  else ['%', hexUpper (b / 16), hexUpper (b % 16)]

/-- Model of Go `url.QueryEscape`: escape the UTF-8 bytes of the
string for use inside a query component. -/
def queryEscape (s : List Char) : List Char :=
  (s.foldr (fun c acc => utf8Bytes c ++ acc) []).foldr
    (fun b acc => escapeByte b ++ acc) []

/-! ## The external lookup collaborator -/

/-- Outcome of decoding the response body as
`{release_date, text, link}`; Go's decoder leaves absent fields as
empty strings, so a decodable body always yields three strings. -/
inductive RespBody where
  | malformed
  | fields (releaseDate text link : List Char)
  deriving DecidableEq

/-- What the single outbound GET observes. -/
inductive FetchOutcome where
  | transportError
  | resp (status : Nat) (body : RespBody)
  deriving DecidableEq

/-- The enrichment environment: the configured endpoint
(`EXTERNAL_API_URL`, empty when unset) and what the network returns. -/
structure FetchEnv where
  apiURL : List Char
  outcome : FetchOutcome
  deriving DecidableEq

/-! ## Variant B repository (the one with `GetSongByID`) -/

namespace VariantB

namespace PostgresRepository

/-- `INSERT INTO songs ... RETURNING id`: appends the record with the
next sequence id and returns that id. -/
def AddSong (st : Store) (group song releaseDate text link : List Char) :
    Nat × Store :=
  (st.nextId,
    ⟨st.nextId + 1,
      st.rows ++ [⟨st.nextId, group, song, releaseDate, text, link⟩]⟩)

/-- `db.Get` on `SELECT * FROM songs WHERE id = $1`: `sql.ErrNoRows`
when no row matches. -/
def GetSongByID (st : Store) (id : Nat) : Except GoErr Song :=
  match findSong st id with
  | none => .error .noRows
  | some r => .ok r

/-- `UPDATE songs SET ... WHERE id = $1` followed by the
`RowsAffected` check: zero affected rows yields `sql.ErrNoRows`. -/
def UpdateSong (st : Store) (id : Nat)
    (group song releaseDate text link : List Char) : Except GoErr Store :=
  let updated := st.rows.map (fun r =>
    if r.id = id then ⟨r.id, group, song, releaseDate, text, link⟩ else r)
  let rowsAffected := (st.rows.filter (fun r => r.id = id)).length
  if rowsAffected = 0 then .error .noRows else .ok ⟨st.nextId, updated⟩

/-- `DELETE FROM songs WHERE id = $1` followed by the `RowsAffected`
check: zero affected rows yields `sql.ErrNoRows`. -/
def DeleteSong (st : Store) (id : Nat) : Except GoErr Store :=
  let rowsAffected := (st.rows.filter (fun r => r.id = id)).length
  if rowsAffected = 0 then .error .noRows
  else .ok ⟨st.nextId, st.rows.filter (fun r => ¬r.id = id)⟩

end PostgresRepository

/-- The `Verse` value returned by the second service: 1-based ordinal
and trimmed text. -/
structure Verse where
  Number : Nat
  Text : List Char
  deriving DecidableEq

namespace MusicService

/-- The URL `fetchExternalData` builds:
`fmt.Sprintf("%s/info?group=%s&song=%s", apiURL, url.QueryEscape(group), url.QueryEscape(song))`. -/
def requestURL (apiURL group song : List Char) : List Char :=
  apiURL ++ "/info?group=".data ++ queryEscape group ++
    "&song=".data ++ queryEscape song

/-- `fetchExternalData`: resolves the endpoint, issues one GET, and
normalises every failure (no configuration, transport error, non-200
status, undecodable body) to three empty strings.  The first component
records the URL of the single GET issued, `none` when no request is
made. -/
def fetchExternalData (env : FetchEnv) (group song : List Char) :
    Option (List Char) × (List Char × List Char × List Char) :=
  if env.apiURL = [] then (none, ([], [], []))
  else
    let url := requestURL env.apiURL group song
    match env.outcome with
    | .transportError => (some url, ([], [], []))
    | .resp status body =>
      if status ≠ 200 then (some url, ([], [], []))
      else
        match body with
        | .malformed => (some url, ([], [], []))
        | .fields rd t l => (some url, (rd, t, l))

/-- The second service's `AddSong`: fetch enrichment data, replace the
whole triple by the fixed placeholders when any field came back empty,
then insert. -/
def AddSong (env : FetchEnv) (st : Store) (group song : List Char) :
    Nat × Store :=
  let fetched := (fetchExternalData env group song).2
  let releaseDate := fetched.1
  let text := fetched.2.1
  let link := fetched.2.2
  if releaseDate = [] ∨ text = [] ∨ link = [] then
    PostgresRepository.AddSong st group song "01.01.2000".data
      "Verse 1\n\nVerse 2\n\nVerse 3".data "https://example.com".data
  else
    PostgresRepository.AddSong st group song releaseDate text link

/-- The loop that tags the verse window: `Verse{Number: i+1, Text:
strings.TrimSpace(verses[i])}` for `i` from `start` to `end`. -/
def numberFrom (n : Nat) : List (List Char) → List Verse
  | [] => []
  | v :: vs => ⟨n, trimSpace v⟩ :: numberFrom (n + 1) vs

/-- The second service's `GetVerses`: fetch the record, split its text
on `"\n\n"`, slice `[start:end]` with `start = (page-1)*limit` and
`end = min(start+limit, total)`, and tag each verse with its 1-based
ordinal and trimmed text. -/
def GetVerses (st : Store) (songID page limit : Nat) :
    Except GoErr (List Verse) :=
  match PostgresRepository.GetSongByID st songID with
  | .error e => .error e
  | .ok song =>
    let verses := splitVerses song.text
    let totalVerses := verses.length
    let start := (page - 1) * limit
    if start ≥ totalVerses then .ok []
    else .ok (numberFrom (start + 1) ((verses.drop start).take limit))

end MusicService

namespace Handler

/-- `internal/api/handler.go` `GetVerses`: validates page/limit, maps
`sql.ErrNoRows` to 404 and any other error to 500. -/
def GetVerses (st : Store) (songID page limit : Nat) : HResp (List Verse) :=
  if page < 1 then .badRequest
  else if limit < 1 then .badRequest
  else
    match MusicService.GetVerses st songID page limit with
    | .error e => if e = .noRows then .notFound else .internalError
    | .ok vs => .ok vs

end Handler

end VariantB

/-! ## Variant A: the rest of `postgers.go` and its service/handler -/

namespace VariantA

namespace PostgresRepository

/-- `postgers.go` `GetVerses` (`SELECT text FROM songs WHERE id=$1`):
on `sql.ErrNoRows` it returns the fresh error built by
`fmt.Errorf("song with id %d not found", songID)` — not
`sql.ErrNoRows` itself. -/
def GetVerses (st : Store) (songID : Nat) : Except GoErr (List Char) :=
  match findSong st songID with
  | none => .error (.songNotFound songID)
  | some r => .ok r.text

/-- `postgers.go` `UpdateSong`: executes the UPDATE and returns its
error unchanged; the affected-row count is discarded
(`_, err := r.db.Exec(...)`), so a missing id is a silent success. -/
def UpdateSong (st : Store) (id : Nat)
    (group song releaseDate text link : List Char) : Except GoErr Store :=
  .ok ⟨st.nextId, st.rows.map (fun r =>
    if r.id = id then ⟨r.id, group, song, releaseDate, text, link⟩ else r)⟩

/-- `postgers.go` `DeleteSong`: checks `RowsAffected` and returns
`sql.ErrNoRows` when zero rows were deleted. -/
def DeleteSong (st : Store) (id : Nat) : Except GoErr Store :=
  let rowsAffected := (st.rows.filter (fun r => r.id = id)).length
  if rowsAffected = 0 then .error .noRows
  else .ok ⟨st.nextId, st.rows.filter (fun r => ¬r.id = id)⟩

end PostgresRepository

namespace MusicService

/-- The first service's `GetVerses`: fetch the lyric text, split it,
and return the raw (untrimmed, unnumbered) window `verses[start:end]`;
repository errors are propagated unchanged. -/
def GetVerses (st : Store) (songID page limit : Nat) :
    Except GoErr (List (List Char)) :=
  match PostgresRepository.GetVerses st songID with
  | .error e => .error e
  | .ok text =>
    let verses := splitVerses text
    let total := verses.length
    let start := (page - 1) * limit
    if start ≥ total then .ok []
    else .ok ((verses.drop start).take limit)

end MusicService

namespace Handler

/-- Part_005's `GetVerses` handler: validates page/limit, then maps an
error satisfying `errors.Is(err, sql.ErrNoRows)` to 404 and any other
error to 500. -/
def GetVerses (st : Store) (songID page limit : Nat) :
    HResp (List (List Char)) :=
  if page < 1 then .badRequest
  else if limit < 1 then .badRequest
  else
    match MusicService.GetVerses st songID page limit with
    | .error e => if e = .noRows then .notFound else .internalError
    | .ok vs => .ok vs

end Handler

end VariantA

/-! ## Claim theorems -/

instance {ε α : Type} [DecidableEq ε] [DecidableEq α] :
    DecidableEq (Except ε α) := fun x y =>
  match x, y with
  | .ok a, .ok b =>
    if h : a = b then isTrue (by rw [h])
    else isFalse (by intro hh; cases hh; exact h rfl)
  | .error a, .error b =>
    if h : a = b then isTrue (by rw [h])
    else isFalse (by intro hh; cases hh; exact h rfl)
  | .ok _, .error _ => isFalse (by intro hh; cases hh)
  | .error _, .ok _ => isFalse (by intro hh; cases hh)

/-- C1 (code evaluated at the failing input): on an empty catalog,
`postgers.go`'s `UpdateSong` of id 1 returns plain success — it
discards the affected-row count — while the part_003 `UpdateSong` and
both `DeleteSong`s derive `sql.ErrNoRows` from the zero affected-row
count as the claim requires. -/
theorem c1_update_silent_noop :
    VariantA.PostgresRepository.UpdateSong emptyStore 1 "g".data "s".data
        "2001".data "t".data "l".data = .ok emptyStore ∧
      VariantB.PostgresRepository.UpdateSong emptyStore 1 "g".data "s".data
        "2001".data "t".data "l".data = .error .noRows ∧
      VariantA.PostgresRepository.DeleteSong emptyStore 1 = .error .noRows ∧
      VariantB.PostgresRepository.DeleteSong emptyStore 1 = .error .noRows := by
  decide

/-- C6 (code evaluated at the failing input): `GetVerses` for a
missing id surfaces as a generic 500 through the `postgers.go`
pipeline, because the repository wraps the no-rows condition in a
fresh `fmt.Errorf` error that the handler's
`errors.Is(err, sql.ErrNoRows)` test cannot recognise; the other
pipeline returns the distinct 404. -/
theorem c6_notfound_not_distinct :
    VariantA.Handler.GetVerses emptyStore 1 1 10 = .internalError ∧
      VariantB.Handler.GetVerses emptyStore 1 1 10 = .notFound := by
  decide

/-- C8: from an empty catalog with the lookup unavailable,
`AddSong("Muse", "Supermassive Black Hole")` returns id 1 and stores
the fallback text, and the two verse pages come back exactly as the
scenario states. -/
theorem c8_scenario :
    (VariantB.MusicService.AddSong ⟨[], .transportError⟩ emptyStore
        "Muse".data "Supermassive Black Hole".data).1 = 1 ∧
      (findSong (VariantB.MusicService.AddSong ⟨[], .transportError⟩ emptyStore
          "Muse".data "Supermassive Black Hole".data).2 1).map Song.text =
        some "Verse 1\n\nVerse 2\n\nVerse 3".data ∧
      VariantB.MusicService.GetVerses
          (VariantB.MusicService.AddSong ⟨[], .transportError⟩ emptyStore
            "Muse".data "Supermassive Black Hole".data).2 1 1 2 =
        .ok [⟨1, "Verse 1".data⟩, ⟨2, "Verse 2".data⟩] ∧
      VariantB.MusicService.GetVerses
          (VariantB.MusicService.AddSong ⟨[], .transportError⟩ emptyStore
            "Muse".data "Supermassive Black Hole".data).2 1 2 2 =
        .ok [⟨3, "Verse 3".data⟩] := by
  decide

/-- C10: a stored record whose lyric text is the empty string has
verse count 1, not 0: `GetVerses(id, 1, limit)` with `limit ≥ 1`
returns exactly one verse with ordinal 1 and empty text. -/
theorem c10_empty_text_one_verse (st : Store) (id limit : Nat) (song : Song)
    (hfind : findSong st id = some song) (htext : song.text = [])
    (hl : 1 ≤ limit) :
    VariantB.MusicService.GetVerses st id 1 limit = .ok [⟨1, []⟩] := by
  obtain ⟨n, rfl⟩ : ∃ n, limit = n + 1 := ⟨limit - 1, by omega⟩
  unfold VariantB.MusicService.GetVerses VariantB.PostgresRepository.GetSongByID
  rw [hfind]
  dsimp only
  rw [htext]
  simp [splitVerses, VariantB.MusicService.numberFrom, trimSpace]

/-- C10 witness: the empty-text theorem applied at a concrete store. -/
theorem c10_empty_text_witness :
    (findSong ⟨2, [⟨1, "g".data, "s".data, [], [], []⟩]⟩ 1 =
        some ⟨1, "g".data, "s".data, [], [], []⟩ ∧
      (⟨1, "g".data, "s".data, [], [], []⟩ : Song).text = [] ∧ 1 ≤ 5) ∧
      VariantB.MusicService.GetVerses ⟨2, [⟨1, "g".data, "s".data, [], [], []⟩]⟩
        1 1 5 = .ok [⟨1, []⟩] :=
  ⟨by decide,
    c10_empty_text_one_verse ⟨2, [⟨1, "g".data, "s".data, [], [], []⟩]⟩ 1 5
      ⟨1, "g".data, "s".data, [], [], []⟩ (by decide) (by decide) (by decide)⟩

/-- The enrichment failure modes: unresolved endpoint configuration,
transport error, non-200 status, or an undecodable body. -/
def enrichFailed (env : FetchEnv) : Bool :=
  decide (env.apiURL = []) ||
    (match env.outcome with
    | .transportError => true
    | .resp status body =>
      decide (status ≠ 200) ||
        (match body with
        | .malformed => true
        | .fields _ _ _ => false))

theorem fetchExternalData_failed (env : FetchEnv) (group song : List Char)
    (h : enrichFailed env = true) :
    (VariantB.MusicService.fetchExternalData env group song).2 = ([], [], []) := by
  unfold enrichFailed at h
  unfold VariantB.MusicService.fetchExternalData
  by_cases h1 : env.apiURL = []
  · simp [h1]
  · simp only [Bool.or_eq_true, decide_eq_true_eq] at h
    rw [if_neg h1]
    rcases h with h | h
    · exact absurd h h1
    · cases henv : env.outcome with
      | transportError => rfl
      | resp status body =>
        rw [henv] at h
        cases body with
        | malformed => by_cases hs : status = 200 <;> simp [hs]
        | fields rd t l =>
          have hne : status ≠ 200 := by simpa using h
          simp [hne]

/-- C2: for every enrichment outcome, `AddSong` returns the fresh
store-assigned identifier (the insert's result, surfaced unchanged),
and on any of the listed enrichment failures it inserts the record
with the three fixed placeholder values; no enrichment failure is ever
surfaced — the function is total over all environments. -/
theorem c2_add_never_fails (env : FetchEnv) (st : Store) (group song : List Char) :
    (VariantB.MusicService.AddSong env st group song).1 = st.nextId ∧
      (enrichFailed env = true →
        (VariantB.MusicService.AddSong env st group song).2.rows =
          st.rows ++ [⟨st.nextId, group, song, "01.01.2000".data,
            "Verse 1\n\nVerse 2\n\nVerse 3".data, "https://example.com".data⟩]) := by
  constructor
  · unfold VariantB.MusicService.AddSong VariantB.PostgresRepository.AddSong
    dsimp only
    split <;> rfl
  · intro hf
    unfold VariantB.MusicService.AddSong
    rw [fetchExternalData_failed env group song hf]
    simp [VariantB.PostgresRepository.AddSong]

/-- C2 witness: the theorem applied to a concrete failing environment
and store. -/
theorem c2_add_never_fails_witness :
    (enrichFailed ⟨[], .transportError⟩ = true) ∧
      (VariantB.MusicService.AddSong ⟨[], .transportError⟩ emptyStore
        "Muse".data "Hole".data).1 = 1 ∧
      (VariantB.MusicService.AddSong ⟨[], .transportError⟩ emptyStore
        "Muse".data "Hole".data).2.rows =
        [] ++ [⟨1, "Muse".data, "Hole".data, "01.01.2000".data,
          "Verse 1\n\nVerse 2\n\nVerse 3".data, "https://example.com".data⟩] :=
  ⟨by decide,
    (c2_add_never_fails ⟨[], .transportError⟩ emptyStore "Muse".data "Hole".data).1,
    (c2_add_never_fails ⟨[], .transportError⟩ emptyStore "Muse".data
      "Hole".data).2 (by decide)⟩

/-- C9: when the lookup returns 200 with a decodable body in which any
of the three fields is the empty string, `AddSong` discards all three
fetched values and persists the complete placeholder triple. -/
theorem c9_partial_enrichment_discarded (apiURL group song rd t l : List Char)
    (st : Store) (hurl : apiURL ≠ []) (hempty : rd = [] ∨ t = [] ∨ l = []) :
    (VariantB.MusicService.AddSong ⟨apiURL, .resp 200 (.fields rd t l)⟩
        st group song).2.rows =
      st.rows ++ [⟨st.nextId, group, song, "01.01.2000".data,
        "Verse 1\n\nVerse 2\n\nVerse 3".data, "https://example.com".data⟩] := by
  unfold VariantB.MusicService.AddSong VariantB.MusicService.fetchExternalData
  simp only [if_neg hurl]
  simp only [ne_eq, decide_not]
  rw [if_pos ?side]
  case side => exact hempty
  · simp [VariantB.PostgresRepository.AddSong]

/-- C9 witness: the theorem applied to a concrete 200 response with an
empty `link` field. -/
theorem c9_partial_enrichment_witness :
    ("http://api".data ≠ ([] : List Char) ∧
      ("2001".data = ([] : List Char) ∨ "text".data = ([] : List Char) ∨
        ([] : List Char) = ([] : List Char))) ∧
      (VariantB.MusicService.AddSong
          ⟨"http://api".data, .resp 200 (.fields "2001".data "text".data [])⟩
          emptyStore "Muse".data "Hole".data).2.rows =
        [] ++ [⟨1, "Muse".data, "Hole".data, "01.01.2000".data,
          "Verse 1\n\nVerse 2\n\nVerse 3".data, "https://example.com".data⟩] :=
  ⟨⟨by decide, Or.inr (Or.inr rfl)⟩,
    c9_partial_enrichment_discarded "http://api".data "Muse".data "Hole".data
      "2001".data "text".data [] emptyStore (by decide) (Or.inr (Or.inr rfl))⟩

/-- Modelled from the spec: the lookup URL as the spec words it, with
the second query parameter named `title`:
`GET <configured-base>/info?group=<escaped>&title=<escaped>`. -/
def specRequestURL (apiURL group title : List Char) : List Char :=
  apiURL ++ "/info?group=".data ++ queryEscape group ++
    "&title=".data ++ queryEscape title

/-- C5 counterexample: at a concrete configured base and (group,
title) pair, the URL the code issues differs from the spec's
`title`-named URL — the code sends the title under the query-parameter
name `song`. -/
theorem c5_param_name_cex :
    VariantB.MusicService.requestURL "http://api".data "Muse".data "Hole".data ≠
        specRequestURL "http://api".data "Muse".data "Hole".data ∧
      (VariantB.MusicService.fetchExternalData
          ⟨"http://api".data, .transportError⟩ "Muse".data "Hole".data).1 =
        some (VariantB.MusicService.requestURL "http://api".data
          "Muse".data "Hole".data) := by
  decide

/-- C5 (amended): with a configured endpoint, the lookup issues a
single GET to `<base>/info?group=<escaped>&song=<escaped>` (the title
travels under the parameter name `song`); a 200 response with a
decodable `{release_date, text, link}` body yields the decoded triple,
and a transport error, any non-200 status, or an undecodable body
yields the unavailable result (three empty strings). -/
theorem c5_fetch_contract (env : FetchEnv) (group song : List Char)
    (hcfg : env.apiURL ≠ []) :
    (VariantB.MusicService.fetchExternalData env group song).1 =
        some (env.apiURL ++ "/info?group=".data ++ queryEscape group ++
          "&song=".data ++ queryEscape song) ∧
      (∀ rd t l, env.outcome = .resp 200 (.fields rd t l) →
        (VariantB.MusicService.fetchExternalData env group song).2 = (rd, t, l)) ∧
      (env.outcome = .transportError →
        (VariantB.MusicService.fetchExternalData env group song).2 = ([], [], [])) ∧
      (∀ status body, env.outcome = .resp status body → status ≠ 200 →
        (VariantB.MusicService.fetchExternalData env group song).2 = ([], [], [])) ∧
      (∀ status, env.outcome = .resp status .malformed →
        (VariantB.MusicService.fetchExternalData env group song).2 = ([], [], [])) := by
  refine ⟨?_, ?_, ?_, ?_, ?_⟩
  · unfold VariantB.MusicService.fetchExternalData VariantB.MusicService.requestURL
    rw [if_neg hcfg]
    cases env.outcome with
    | transportError => rfl
    | resp status body =>
      by_cases hs : status = 200
      · cases body <;> simp [hs]
      · simp [hs]
  · intro rd t l h
    unfold VariantB.MusicService.fetchExternalData
    rw [if_neg hcfg, h]
    simp
  · intro h
    unfold VariantB.MusicService.fetchExternalData
    rw [if_neg hcfg, h]
  · intro status body h hne
    unfold VariantB.MusicService.fetchExternalData
    rw [if_neg hcfg, h]
    simp [hne]
  · intro status h
    unfold VariantB.MusicService.fetchExternalData
    rw [if_neg hcfg, h]
    by_cases hs : status = 200 <;> simp [hs]

/-- C5 witness: the amended contract applied to a concrete configured
environment with a 200 response. -/
theorem c5_fetch_contract_witness :
    ("http://api".data ≠ ([] : List Char)) ∧
      (VariantB.MusicService.fetchExternalData
          ⟨"http://api".data, .resp 200 (.fields "2001".data "txt".data "ln".data)⟩
          "Muse".data "Hole".data).2 = ("2001".data, "txt".data, "ln".data) :=
  ⟨by decide,
    (c5_fetch_contract
        ⟨"http://api".data, .resp 200 (.fields "2001".data "txt".data "ln".data)⟩
        "Muse".data "Hole".data (by decide)).2.1
      "2001".data "txt".data "ln".data rfl⟩

theorem numberFrom_length (n : Nat) (l : List (List Char)) :
    (VariantB.MusicService.numberFrom n l).length = l.length := by
  induction l generalizing n with
  | nil => rfl
  | cons v vs ih => simp [VariantB.MusicService.numberFrom, ih]

theorem numberFrom_getD (n : Nat) (l : List (List Char)) (i : Nat)
    (h : i < l.length) :
    (VariantB.MusicService.numberFrom n l).getD i ⟨0, []⟩ =
      ⟨n + i, trimSpace (l.getD i [])⟩ := by
  induction l generalizing n i with
  | nil => simp at h
  | cons v vs ih =>
    cases i with
    | zero => rfl
    | succ j =>
      show (VariantB.Verse.mk n (trimSpace v) ::
        VariantB.MusicService.numberFrom (n + 1) vs).getD (j + 1) ⟨0, []⟩ = _
      rw [List.getD_cons_succ, ih (n + 1) j (by simpa using h),
        List.getD_cons_succ]
      have harith : n + 1 + j = n + (j + 1) := by omega
      rw [harith]

/-- C3: paginating the verses of a stored record returns at most
`limit` verses, with consecutive ordinals starting at
`(page-1)*limit + 1`, each verse being the trimmed text of the
corresponding blank-line-delimited segment, and an empty sequence
(with no error) when the start offset reaches the total verse
count. -/
theorem c3_getverses_pagination (st : Store) (id page limit : Nat) (song : Song)
    (hfind : findSong st id = some song) (hp : 1 ≤ page) (hl : 1 ≤ limit) :
    ∃ vs, VariantB.MusicService.GetVerses st id page limit = .ok vs ∧
      vs.length ≤ limit ∧
      (∀ i, i < vs.length →
        vs.getD i ⟨0, []⟩ = ⟨(page - 1) * limit + 1 + i,
          trimSpace (((splitVerses song.text).drop ((page - 1) * limit)).getD i [])⟩) ∧
      ((splitVerses song.text).length ≤ (page - 1) * limit → vs = []) := by
  unfold VariantB.MusicService.GetVerses VariantB.PostgresRepository.GetSongByID
  rw [hfind]
  dsimp only
  by_cases hge : (page - 1) * limit ≥ (splitVerses song.text).length
  · rw [if_pos hge]
    refine ⟨[], rfl, by simp, ?_, fun _ => rfl⟩
    intro i h
    simp at h
  · rw [if_neg hge]
    refine ⟨_, rfl, ?_, ?_, ?_⟩
    · rw [numberFrom_length]
      have := List.length_take limit
        ((splitVerses song.text).drop ((page - 1) * limit))
      omega
    · intro i h
      have hwin : i <
          (((splitVerses song.text).drop ((page - 1) * limit)).take limit).length := by
        rw [numberFrom_length] at h
        exact h
      have hdrop : i < ((splitVerses song.text).drop ((page - 1) * limit)).length := by
        have := List.length_take limit
          ((splitVerses song.text).drop ((page - 1) * limit))
        omega
      rw [numberFrom_getD _ _ _ hwin]
      have hgd : (((splitVerses song.text).drop ((page - 1) * limit)).take
            limit).getD i [] =
          ((splitVerses song.text).drop ((page - 1) * limit)).getD i [] := by
        rw [List.getD_eq_getElem _ _ hwin, List.getElem_take,
          ← List.getD_eq_getElem _ ([] : List Char) hdrop]
      rw [hgd]
    · intro h
      exact absurd h hge

/-- C3 witness: the pagination theorem applied to a concrete stored
song with three verses, at page 2 with limit 1. -/
theorem c3_getverses_witness :
    (findSong ⟨2, [⟨1, "g".data, "s".data, "rd".data, "A\n\nB\n\nC".data, []⟩]⟩ 1 =
        some ⟨1, "g".data, "s".data, "rd".data, "A\n\nB\n\nC".data, []⟩ ∧
      1 ≤ 2 ∧ 1 ≤ 1) ∧
      (∃ vs, VariantB.MusicService.GetVerses
          ⟨2, [⟨1, "g".data, "s".data, "rd".data, "A\n\nB\n\nC".data, []⟩]⟩ 1 2 1 =
            .ok vs ∧
        vs.length ≤ 1 ∧
        (∀ i, i < vs.length →
          vs.getD i ⟨0, []⟩ = ⟨(2 - 1) * 1 + 1 + i,
            trimSpace (((splitVerses (Song.mk 1 "g".data "s".data "rd".data
              "A\n\nB\n\nC".data []).text).drop ((2 - 1) * 1)).getD i [])⟩) ∧
        ((splitVerses (Song.mk 1 "g".data "s".data "rd".data
          "A\n\nB\n\nC".data []).text).length ≤ (2 - 1) * 1 → vs = [])) :=
  ⟨⟨by decide, by decide, by decide⟩,
    c3_getverses_pagination
      ⟨2, [⟨1, "g".data, "s".data, "rd".data, "A\n\nB\n\nC".data, []⟩]⟩ 1 2 1
      ⟨1, "g".data, "s".data, "rd".data, "A\n\nB\n\nC".data, []⟩
      (by decide) (by decide) (by decide)⟩
